import Mathlib

/-! The Swagger document renderer and the route facade of go-chi-wrapper.

A shallow embedding of `swagger.go` (`Swagger.ReadDoc`) and of the two
facade methods of `server.go` that carry state of their own
(`Server.Listen`, `Server.Swagger`).

`ReadDoc` is three library calls glued together: `ioutil.ReadFile`,
`strings.Replace` and `html/template` (with `encoding/json` behind the
`marshal` helper).  The library calls are modelled here as far as the
repository uses them:

* a Go `string` is a sequence of bytes (`GoString`);
* the file system is a table from paths to the outcome of reading them;
* `html/template` is modelled on a fragment of its input language (text
  without markup, field actions, the `marshal` call); what the library
  does outside that fragment is a parameter (`Library`), and every
  statement below holds for every value of that parameter.
-/

/-! ## Go strings -/

/-- A Go `string`: an immutable sequence of bytes. -/
abbrev GoString := List UInt8

/-- The bytes (UTF-8) of a string literal. -/
def str (s : String) : GoString := s.data.flatMap String.utf8EncodeChar

/-! ## The file system and `ioutil.ReadFile` -/

/-- The `syscall.Errno` values a failing `open`/`read` reports here. -/
inductive Errno
| ENOENT
| EACCES
| EISDIR
| ENOTDIR
| EMFILE
deriving DecidableEq, Repr

/-- Text of `syscall.Errno.Error()` (the POSIX `strerror` table of package syscall). -/
def Errno.Error : Errno → GoString
| .ENOENT => str "no such file or directory"
| .EACCES => str "permission denied"
| .EISDIR => str "is a directory"
| .ENOTDIR => str "not a directory"
| .EMFILE => str "too many open files"

/-- The system call that failed inside `ioutil.ReadFile`. -/
inductive FileOp
| opOpen
| opRead
deriving DecidableEq, Repr

/-- The `Op` string `os` stores in a `*PathError`. -/
def FileOp.name : FileOp → GoString
| .opOpen => str "open"
| .opRead => str "read"

/-- Go `os.PathError`. -/
structure PathError where
  Op : GoString
  Path : GoString
  Err : Errno
deriving DecidableEq, Repr

/-- Go `(*PathError).Error`: `e.Op + " " + e.Path + ": " + e.Err.Error()`. -/
def PathError.Error (e : PathError) : GoString :=
  e.Op ++ str " " ++ e.Path ++ str ": " ++ e.Err.Error

/-- What the file system holds: for a (non-empty) path, the bytes of the file
there, or the system call that fails and its errno. -/
abbrev FileSystem := GoString → Except (FileOp × Errno) GoString

/-- Go `ioutil.ReadFile(filename)`.  The empty name resolves to no file
(`ENOENT` from `open`, as POSIX path resolution prescribes and the test
`negative - read file error` expects); every other name is looked up. -/
def ioutil_ReadFile (fs : FileSystem) (filename : GoString) : Except PathError GoString :=
  if filename = [] then
    .error { Op := FileOp.opOpen.name, Path := filename, Err := .ENOENT }
  else
    match fs filename with
    | .ok data => .ok data
    | .error (op, errno) => .error { Op := op.name, Path := filename, Err := errno }

/-! ## `strings.Replace` -/

/-- Go `strings.Replace(s, old, new, -1)` for a one-byte `old`: every
occurrence of the byte is replaced by `new`, left to right. -/
def strings_Replace (s : GoString) (old : UInt8) (new : GoString) : GoString :=
  match s with
  | [] => []
  | c :: rest =>
    if c = old then new ++ strings_Replace rest old new
    else c :: strings_Replace rest old new

/-! ## The info record -/

/-- The `swaggerInfo` struct of `swagger.go`. -/
structure swaggerInfo where
  Version : GoString
  Host : GoString
  BasePath : GoString
  Schemes : List GoString
  Title : GoString
  Description : GoString
deriving DecidableEq, Repr

/-- A value a template action can produce from a `swaggerInfo`: a `string`
or a `[]string`. -/
inductive Value
| string (s : GoString)
| strings (l : List GoString)
deriving DecidableEq, Repr

/-- Field lookup by name as `text/template` does it through reflection on
the struct: the six exported fields, nothing else. -/
def swaggerInfo.FieldByName (s : swaggerInfo) (name : GoString) : Option Value :=
  if name = str "Version" then some (.string s.Version)
  else if name = str "Host" then some (.string s.Host)
  else if name = str "BasePath" then some (.string s.BasePath)
  else if name = str "Schemes" then some (.strings s.Schemes)
  else if name = str "Title" then some (.string s.Title)
  else if name = str "Description" then some (.string s.Description)
  else none

/-! ## `encoding/json` and the `marshal` helper -/

/-- Outcome of a library computation that is modelled on part of its domain
only: `outside` marks an input this development does not model (the library
still returns something there; see `Library`). -/
inductive Modelled (α : Type)
| known (a : α)
| outside
deriving DecidableEq, Repr

/-- ASCII bytes that `encoding/json` copies into a string literal as they
are (its `htmlSafeSet`): `0x20 .. 0x7F` without the double quote, the
backslash and the three HTML-sensitive bytes. -/
def htmlSafe (b : UInt8) : Bool :=
  decide (0x20 ≤ b) && decide (b ≤ 0x7F) &&
    b != 0x22 && b != 0x5C && b != 0x3C && b != 0x3E && b != 0x26

/-- How `encoding/json` writes one byte of a string.  Bytes whose encoding
needs UTF-8 decoding or differs between Go releases (`>= 0x80`, control
bytes other than tab, line feed and carriage return) are outside the model. -/
def jsonByte (b : UInt8) : Modelled GoString :=
  if htmlSafe b then .known [b]
  else if b = 0x22 then .known (str "\\\"")
  else if b = 0x5C then .known (str "\\\\")
  else if b = 0x0A then .known (str "\\n")
  else if b = 0x0D then .known (str "\\r")
  else if b = 0x09 then .known (str "\\t")
  else if b = 0x3C then .known (str "\\u003c")
  else if b = 0x3E then .known (str "\\u003e")
  else if b = 0x26 then .known (str "\\u0026")
  else .outside

/-- The characters of a JSON string literal between its quotes. -/
def jsonStringBody : GoString → Modelled GoString
| [] => .known []
| b :: rest =>
  match jsonByte b, jsonStringBody rest with
  | .known e, .known r => .known (e ++ r)
  | _, _ => .outside

/-- Go `json.Marshal` of a `string`. -/
def jsonString (s : GoString) : Modelled GoString :=
  match jsonStringBody s with
  | .known body => .known (0x22 :: body ++ [0x22])
  | .outside => .outside

/-- The elements of a JSON array of strings, separated by commas. -/
def jsonElems : List GoString → Modelled GoString
| [] => .known []
| s :: rest =>
  match rest with
  | [] => jsonString s
  | _ :: _ =>
    match jsonString s, jsonElems rest with
    | .known e, .known r => .known (e ++ 0x2C :: r)
    | _, _ => .outside

/-- Go `json.Marshal` of a `string` or a `[]string`.  A slice of length 0 is
outside the model: Go writes `null` for a nil slice and `[]` for an empty
one, and a list does not tell them apart. -/
def json_Marshal : Value → Modelled GoString
| .string s => jsonString s
| .strings [] => .outside
| .strings (s :: rest) =>
  match jsonElems (s :: rest) with
  | .known body => .known (0x5B :: body ++ [0x5D])
  | .outside => .outside

/-- The template function `marshal` of `ReadDoc`:
`a, _ := json.Marshal(v); return string(a)`. -/
def marshal (v : Value) : Modelled GoString := json_Marshal v

/-! ## `fmt` -/

/-- Elements separated by one space, as `fmt` prints a slice. -/
def joinSpace : List GoString → GoString
| [] => []
| s :: rest =>
  match rest with
  | [] => s
  | _ :: _ => s ++ 0x20 :: joinSpace rest

/-- Go `fmt.Sprint(v)` for a `string` or a `[]string` (`[a b c]`). -/
def fmt_Sprint : Value → GoString
| .string s => s
| .strings l => 0x5B :: joinSpace l ++ [0x5D]

/-! ## `text/template`: lexing and parsing -/

/-- A lexer item: text between actions, or the inside of one `{{ ... }}`. -/
inductive Item
| text (s : GoString)
| action (s : GoString)
deriving DecidableEq, Repr

/-- The lexer emits a text item only when it is not empty. -/
def emitText (revText : GoString) (items : List Item) : List Item :=
  if revText = [] then items else .text revText.reverse :: items

/-- One pass over the input.  Outside an action the text runs to the first
`{{`; inside, the action runs to the first `}}`.  The second argument holds
the bytes read since the last delimiter, newest first.  The input ending
inside an action is the lexer's "unclosed action" error (`none`). -/
def lex : Bool → GoString → GoString → Option (List Item)
| false, acc, [] => some (emitText acc [])
| true, _, [] => none
| inAction, acc, c :: rest =>
  match rest with
  | [] => lex inAction (c :: acc) []
  | c' :: rest' =>
    if inAction then
      if c = 0x7D ∧ c' = 0x7D then
        (lex false [] rest').map (fun items => Item.action acc.reverse :: items)
      else lex true (c :: acc) (c' :: rest')
    else
      if c = 0x7B ∧ c' = 0x7B then
        (lex true [] rest').map (fun items => emitText acc items)
      else lex false (c :: acc) (c' :: rest')

/-- A node of the parse tree, for the actions of the modelled fragment. -/
inductive Node
| text (s : GoString)
| field (name : GoString)
| marshal (name : GoString)
deriving DecidableEq, Repr

/-- Space and tab, the blanks every release of the lexer accepts inside an
action. -/
def isBlank (b : UInt8) : Bool := b == 0x20 || b == 0x09

/-- An ASCII decimal digit. -/
def isDigit (b : UInt8) : Bool := decide (0x30 ≤ b) && decide (b ≤ 0x39)

/-- An ASCII letter. -/
def isAlpha (b : UInt8) : Bool :=
  (decide (0x41 ≤ b) && decide (b ≤ 0x5A)) || (decide (0x61 ≤ b) && decide (b ≤ 0x7A))

/-- ASCII letters, digits and the underscore. -/
def isAlphaNumeric (b : UInt8) : Bool := isAlpha b || isDigit b || b == 0x5F

/-- A field name of the fragment: non-empty, ASCII alphanumeric, not
starting with a digit (`.5` is a number to the lexer). -/
def isFieldName (name : GoString) : Bool :=
  match name with
  | [] => false
  | c :: _ => !isDigit c && name.all isAlphaNumeric

/-- Recognise `.Name`. -/
def parseField (s : GoString) : Option GoString :=
  match s with
  | [] => none
  | c :: name => if c = 0x2E ∧ isFieldName name then some name else none

/-- Drop the given literal from the front of the input, if it is there. -/
def dropLiteral : GoString → GoString → Option GoString
| [], s => some s
| _ :: _, [] => none
| a :: lit, b :: s => if a = b then dropLiteral lit s else none

/-- Blanks removed from both ends. -/
def trimBlank (s : GoString) : GoString :=
  ((s.dropWhile isBlank).reverse.dropWhile isBlank).reverse

/-- Parse the inside of one action: `.Name` or `marshal .Name`, with
optional blanks around.  Everything else the template language offers
(pipelines, control structures, literals, variables, comments, trim
markers, other functions) is outside the fragment (`none`). -/
def parseAction (s : GoString) : Option Node :=
  let body := trimBlank s
  match parseField body with
  | some name => some (.field name)
  | none =>
    match dropLiteral (str "marshal") body with
    | none => none
    | some rest =>
      match rest with
      | [] => none
      | c :: _ =>
        if isBlank c then (parseField (rest.dropWhile isBlank)).map Node.marshal
        else none

/-- Parse every item; `none` when an action is outside the fragment. -/
def parseItems : List Item → Option (List Node)
| [] => some []
| .text s :: rest => (parseItems rest).map (fun ns => Node.text s :: ns)
| .action s :: rest =>
  match parseAction s, parseItems rest with
  | some n, some ns => some (n :: ns)
  | _, _ => none

/-! ## `html/template`: contextual escaping and execution -/

/-- The `htmlReplacementTable` of `html/template`: the bytes the HTML
escaper rewrites, and what it writes for them (NUL becomes U+FFFD). -/
def htmlReplacementTable (b : UInt8) : Option GoString :=
  if b = 0x00 then some [0xEF, 0xBF, 0xBD]
  else if b = 0x22 then some (str "&#34;")
  else if b = 0x26 then some (str "&amp;")
  else if b = 0x27 then some (str "&#39;")
  else if b = 0x2B then some (str "&#43;")
  else if b = 0x3C then some (str "&lt;")
  else if b = 0x3E then some (str "&gt;")
  else none

/-- The `htmlReplacer` of `html/template` with that table: every byte that
has an entry is replaced, every other byte is copied. -/
def htmlReplacer : GoString → GoString
| [] => []
| b :: rest =>
  match htmlReplacementTable b with
  | some r => r ++ htmlReplacer rest
  | none => b :: htmlReplacer rest

/-- The escaper `html/template` appends to an action in HTML text context
(`_html_template_htmlescaper`): the value is printed with `fmt.Sprint` and
the result HTML-escaped. -/
def htmlEscaper (v : Value) : GoString := htmlReplacer (fmt_Sprint v)

/-- What the escaper does to a text node while the document is in HTML text
context: a `<` that opens no markup is rewritten to `&lt;`, the rest is
kept.  A `<` followed by a letter, `/` or `!` may open a tag, a comment or
a doctype and leave text context: such a node is outside the model. -/
def escapeText : GoString → Modelled GoString
| [] => .known []
| c :: rest =>
  match rest with
  | [] => if c = 0x3C then .known (str "&lt;") else .known [c]
  | c' :: _ =>
    if c = 0x3C then
      if isAlpha c' || c' == 0x2F || c' == 0x21 then .outside
      else
        match escapeText rest with
        | .known r => .known (str "&lt;" ++ r)
        | .outside => .outside
    else
      match escapeText rest with
      | .known r => .known (c :: r)
      | .outside => .outside

/-- The escaping pass over the parse tree: text nodes are rewritten by
`escapeText`; actions stay (each gets the HTML escaper, applied in
`evalNode`). -/
def escapeTree : List Node → Modelled (List Node)
| [] => .known []
| .text s :: rest =>
  match escapeText s, escapeTree rest with
  | .known s', .known ns => .known (.text s' :: ns)
  | _, _ => .outside
| n :: rest =>
  match escapeTree rest with
  | .known ns => .known (n :: ns)
  | .outside => .outside

/-- What executing one node does. -/
inductive Step
| out (s : GoString)
| fail
| outside
deriving DecidableEq, Repr

/-- Execute one node of an escaped tree against the data: text is written as
it is; a field action looks the field up (an unknown name is the execution
error "can't evaluate field") and writes its escaped value; `marshal` is
applied to the field before escaping. -/
def evalNode (data : swaggerInfo) : Node → Step
| .text s => .out s
| .field name =>
  match data.FieldByName name with
  | none => .fail
  | some v => .out (htmlEscaper v)
| .marshal name =>
  match data.FieldByName name with
  | none => .fail
  | some v =>
    match marshal v with
    | .known j => .out (htmlEscaper (.string j))
    | .outside => .outside

/-- Result of walking the tree: the buffer, and whether an error stopped the
walk (the buffer then holds what was written before it). -/
inductive Walk
| done (buf : GoString)
| failed (buf : GoString)
| outside
deriving DecidableEq, Repr

/-- Walk the nodes in order, appending to the buffer. -/
def walk (data : swaggerInfo) : List Node → GoString → Walk
| [], buf => .done buf
| n :: rest, buf =>
  match evalNode data n with
  | .out s => walk data rest (buf ++ s)
  | .fail => .failed buf
  | .outside => .outside

/-- The errors of the template library, as far as `ReadDoc` tells them
apart: it only tests `err != nil`. -/
inductive TemplateError
| parseError
| execError
deriving DecidableEq, Repr

/-- The behaviour of `html/template` on the inputs this development does not
model, as a parameter: whether `Parse` accepts a document that uses syntax
outside the fragment, and what `Execute` leaves in the buffer, with or
without an error, for a document or data outside the fragment.  Nothing is
assumed about it beyond being a function of the document and the data. -/
structure Library where
  Parse : GoString → Bool
  Execute : GoString → swaggerInfo → GoString × Option TemplateError

/-- A parsed template (`*template.Template`): its source, and its tree when
the source is inside the fragment. -/
structure Template where
  src : GoString
  tree : Option (List Node)
deriving DecidableEq, Repr

/-- Go `template.New("swagger_info").Funcs(...).Parse(doc)`. -/
def template_Parse (L : Library) (doc : GoString) : Except TemplateError Template :=
  match lex false [] doc with
  | none => .error .parseError
  | some items =>
    match parseItems items with
    | some ns => .ok { src := doc, tree := some ns }
    | none =>
      if L.Parse doc then .ok { src := doc, tree := none }
      else .error .parseError

/-- Go `t.Execute(&tpl, data)` on an empty buffer: the buffer afterwards and
the error, if any.  The escaping pass runs first, then the walk. -/
def template_Execute (L : Library) (t : Template) (data : swaggerInfo) :
    GoString × Option TemplateError :=
  match t.tree with
  | none => L.Execute t.src data
  | some ns =>
    match escapeTree ns with
    | .outside => L.Execute t.src data
    | .known es =>
      match walk data es [] with
      | .done buf => (buf, none)
      | .failed buf => (buf, some .execError)
      | .outside => L.Execute t.src data

/-! ## `swagger.go` -/

/-- The package-level variables of `swagger.go`. -/
structure Globals where
  Path : GoString
  SwaggerInfo : swaggerInfo
deriving DecidableEq, Repr

/-- The values the package-level variables are initialised with. -/
def Globals.initial : Globals :=
  { Path := str "docs/swagger.yaml"
    SwaggerInfo :=
      { Version := [], Host := [], BasePath := [], Schemes := [], Title := [],
        Description := [] } }

namespace Swagger

/-- Go `(*Swagger).ReadDoc`: the string returned, and the package-level
variables after the call. -/
def ReadDoc (L : Library) (fs : FileSystem) (g : Globals) : GoString × Globals :=
  match ioutil_ReadFile fs g.Path with
  | .error err => (err.Error, g)
  | .ok doc =>
    let sInfo := g.SwaggerInfo
    let sInfo := { sInfo with
      Description := strings_Replace sInfo.Description 0x0A (str "\\n") }
    match template_Parse L doc with
    | .error _ => (doc, g)
    | .ok t =>
      match template_Execute L t sInfo with
      | (_, some _) => (doc, g)
      | (tpl, none) => (tpl, g)

end Swagger

/-! ## `server.go` -/

/-- The byte of a decimal digit. -/
def digitByte (d : Nat) : UInt8 := UInt8.ofNat (0x30 + d)

/-- Decimal digits of `n`, most significant first, written in front of
`acc`; the first argument bounds the number of digits produced. -/
def formatDigits : Nat → Nat → GoString → GoString
| 0, _, acc => acc
| fuel + 1, n, acc =>
  if n < 10 then digitByte n :: acc
  else formatDigits fuel (n / 10) (digitByte (n % 10) :: acc)

/-- Go `strconv.FormatUint(n, 10)`. -/
def strconv_FormatUint (n : Nat) : GoString := formatDigits (n + 1) n []

/-- Go `strconv.FormatInt(i, 10)`: a minus sign for a negative number, then
the digits of its magnitude. -/
def strconv_FormatInt (i : Int) : GoString :=
  if i < 0 then 0x2D :: strconv_FormatUint i.natAbs else strconv_FormatUint i.natAbs

/-- Go `fmt.Sprintf(":%v", port)` for an `int`. -/
def fmt_Sprintf_addr (port : Int) : GoString := 0x3A :: strconv_FormatInt port

/-- The number a string of decimal digits denotes. -/
def decimalValue (s : GoString) : Nat :=
  s.foldl (fun a b => 10 * a + (b.toNat - 0x30)) 0

/-- The decimal representation of a natural number, stated on its own: a
non-empty string of digits that denotes the number and has no leading
zero, the single digit `0` apart. -/
def isDecimalNumeral (ds : GoString) (n : Nat) : Prop :=
  ds ≠ [] ∧ (∀ b ∈ ds, isDigit b = true) ∧ decimalValue ds = n ∧
    (ds.head? = some 0x30 → ds = [0x30])

instance (ds : GoString) (n : Nat) : Decidable (isDecimalNumeral ds n) := by
  unfold isDecimalNumeral
  infer_instance

/-- The exported fields of `net/http.Server`, in the order of the library's
declaration.  Nil-able fields of library types (pointers, maps, functions)
are `Option Unit`; durations and sizes are integers.  The unexported
bookkeeping a running server keeps is not part of the value modelled. -/
structure http_Server (Mux : Type) where
  Addr : GoString
  Handler : Option Mux
  TLSConfig : Option Unit
  ReadTimeout : Int
  ReadHeaderTimeout : Int
  WriteTimeout : Int
  IdleTimeout : Int
  MaxHeaderBytes : Int
  TLSNextProto : Option Unit
  ConnState : Option Unit
  ErrorLog : Option Unit
  BaseContext : Option Unit
  ConnContext : Option Unit

/-- The `Server` struct of `server.go`; `router` is a pointer and may be nil. -/
structure Server (Context Mux : Type) where
  ctx : Context
  router : Option Mux

/-- The handler `Server.Swagger` registers:
`httpSwagger.Handler(httpSwagger.URL("doc.json"))`. -/
inductive Handler
| httpSwagger (url : GoString)
deriving DecidableEq, Repr

/-- The router library as far as `Server.Swagger` calls it: `(*Mux).Get` on
the router pointer, nil or not, yields the router with the route added, or
panics with a message (chi rejects some patterns, and a nil receiver is
dereferenced). -/
structure Chi (Mux : Type) where
  Get : Option Mux → GoString → Handler → Except GoString Mux

namespace Server

variable {Context Mux : Type}

/-- Go `(*Server).Listen`: the `*http.Server` it returns, as constructed by
the composite literal (the goroutine it starts and the log line are not
part of the value). -/
def Listen (h : Server Context Mux) (port : Int) : http_Server Mux :=
  { Addr := fmt_Sprintf_addr port
    Handler := h.router
    TLSConfig := none
    ReadTimeout := 0
    ReadHeaderTimeout := 0
    WriteTimeout := 0
    IdleTimeout := 0
    MaxHeaderBytes := 0
    TLSNextProto := none
    ConnState := none
    ErrorLog := none
    BaseContext := none
    ConnContext := none }

/-- Go `(*Server).Swagger`: `Path = path`, then `h.router.Get(pattern, ...)`.
The result is the package-level variables after the call and the server,
or the panic raised inside `Get`; the assignment to `Path` comes first and
is kept either way. -/
def Swagger (chi : Chi Mux) (h : Server Context Mux) (pattern path : GoString)
    (g : Globals) : Globals × Except GoString (Server Context Mux) :=
  let g := { g with Path := path }
  match chi.Get h.router pattern (.httpSwagger (str "doc.json")) with
  | .ok r' => (g, .ok { h with router := some r' })
  | .error msg => (g, .error msg)

end Server

/-! ## Fixtures -/

/-- A file system holding one file, `doc.json`, with the given content;
`secret.json` exists but may not be read; nothing else exists. -/
def oneFile (doc : GoString) : FileSystem := fun p =>
  if p = str "doc.json" then .ok doc
  else if p = str "secret.json" then .error (.opOpen, .EACCES)
  else .error (.opOpen, .ENOENT)

/-- An info record as an application would set it. -/
def sampleInfo : swaggerInfo :=
  { Version := str "1.0"
    Host := str "localhost:8080"
    BasePath := str "/v1"
    Schemes := [str "http", str "https"]
    Title := str "R&D API"
    Description := str "a & b\nc" }

/-- Package state with `Path` pointing at `doc.json`. -/
def sampleGlobals : Globals := { Path := str "doc.json", SwaggerInfo := sampleInfo }

/-- A library that rejects every document outside the fragment. -/
def strictLibrary : Library :=
  { Parse := fun _ => false, Execute := fun _ _ => ([], some .execError) }

/-- The document of `swagger_test.go`. -/
def testDoc : GoString :=
  str "\x7b\n    \"info\": \x7b\n        \"title\": \"Swagger Test\"\n    \x7d\n\x7d"

/-! ## Properties of `ReadDoc` -/

/-- No return path of `ReadDoc` changes the package-level variables. -/
theorem ReadDoc_globals (L : Library) (fs : FileSystem) (g : Globals) :
    (Swagger.ReadDoc L fs g).2 = g := by
  unfold Swagger.ReadDoc
  split
  · rfl
  · dsimp only
    split
    · rfl
    · split <;> rfl

/-- The string `ReadDoc` returns depends on the outcome of reading the file
and on `SwaggerInfo`, on nothing else. -/
theorem ReadDoc_congr (L : Library) (fs fs' : FileSystem) (g g' : Globals)
    (hfile : ioutil_ReadFile fs g.Path = ioutil_ReadFile fs' g'.Path)
    (hinfo : g.SwaggerInfo = g'.SwaggerInfo) :
    (Swagger.ReadDoc L fs g).1 = (Swagger.ReadDoc L fs' g').1 := by
  unfold Swagger.ReadDoc
  rw [hfile, hinfo]
  cases ioutil_ReadFile fs' g'.Path with
  | error e => rfl
  | ok doc =>
    dsimp only
    cases template_Parse L doc with
    | error e => rfl
    | ok t =>
      dsimp only
      split <;> rfl

/-- C1: when reading the file at `Path` fails, `ReadDoc` returns the text of
the error, `Op + " " + Path + ": " + errno text`, as an ordinary string
result; with `Path = ""` that text is `open : no such file or directory`. -/
theorem ReadDoc_read_failure (L : Library) (fs : FileSystem) (g : Globals) (e : PathError)
    (h : ioutil_ReadFile fs g.Path = .error e) :
    (Swagger.ReadDoc L fs g).1 = e.Op ++ str " " ++ e.Path ++ str ": " ++ e.Err.Error ∧
    e.Path = g.Path ∧
    (g.Path = [] → (Swagger.ReadDoc L fs g).1 = str "open : no such file or directory") := by
  have h1 : (Swagger.ReadDoc L fs g).1 = e.Error := by simp [Swagger.ReadDoc, h]
  refine ⟨h1, ?_, fun hp => ?_⟩
  · unfold ioutil_ReadFile at h
    split at h
    · cases h; rfl
    · split at h
      · cases h
      · cases h; rfl
  · rw [h1]
    simp only [ioutil_ReadFile, hp, if_true] at h
    cases h
    rfl

/-- Witness for C1: the empty path, and a file that may not be opened. -/
theorem ReadDoc_read_failure_witness :
    (Swagger.ReadDoc strictLibrary (oneFile testDoc) { sampleGlobals with Path := [] }).1
        = str "open : no such file or directory" ∧
    (Swagger.ReadDoc strictLibrary (oneFile testDoc)
        { sampleGlobals with Path := str "secret.json" }).1
        = str "open secret.json: permission denied" :=
  ⟨(ReadDoc_read_failure strictLibrary (oneFile testDoc) { sampleGlobals with Path := [] }
      { Op := str "open", Path := [], Err := .ENOENT } rfl).2.2 rfl,
   (ReadDoc_read_failure strictLibrary (oneFile testDoc)
      { sampleGlobals with Path := str "secret.json" }
      { Op := str "open", Path := str "secret.json", Err := .EACCES } rfl).1⟩

/-- C2: when the file loads and either `Parse` fails or `Execute` fails
(whatever it had written to the buffer before), `ReadDoc` returns the file
content itself. -/
theorem ReadDoc_template_failure (L : Library) (fs : FileSystem) (g : Globals)
    (doc : GoString)
    (hread : ioutil_ReadFile fs g.Path = .ok doc)
    (hfail : (∃ err, template_Parse L doc = .error err) ∨
      (∃ t buf err, template_Parse L doc = .ok t ∧
        template_Execute L t
          { g.SwaggerInfo with
            Description := strings_Replace g.SwaggerInfo.Description 0x0A (str "\\n") }
          = (buf, some err))) :
    (Swagger.ReadDoc L fs g).1 = doc := by
  unfold Swagger.ReadDoc
  rw [hread]
  dsimp only
  rcases hfail with ⟨err, hp⟩ | ⟨t, buf, err, hp, he⟩
  · rw [hp]
  · rw [hp]
    dsimp only
    rw [he]

/-- Witness for C2: an unclosed action (parse failure), and a field that does
not exist (execution failure after `a` was written to the buffer). -/
theorem ReadDoc_template_failure_witness :
    (Swagger.ReadDoc strictLibrary (oneFile (str "\x7b\x7b.Title")) sampleGlobals).1
        = str "\x7b\x7b.Title" ∧
    (Swagger.ReadDoc strictLibrary (oneFile (str "a\x7b\x7b.Nope\x7d\x7db")) sampleGlobals).1
        = str "a\x7b\x7b.Nope\x7d\x7db" :=
  ⟨ReadDoc_template_failure strictLibrary (oneFile (str "\x7b\x7b.Title")) sampleGlobals
      (str "\x7b\x7b.Title") rfl (Or.inl ⟨.parseError, rfl⟩),
   ReadDoc_template_failure strictLibrary (oneFile (str "a\x7b\x7b.Nope\x7d\x7db"))
      sampleGlobals (str "a\x7b\x7b.Nope\x7d\x7db") rfl
      (Or.inr ⟨{ src := str "a\x7b\x7b.Nope\x7d\x7db",
                 tree := some [.text (str "a"), .field (str "Nope"), .text (str "b")] },
               str "a", .execError, rfl, rfl⟩)⟩

/-- C7: two successive calls with `Path`, `SwaggerInfo` and the file system
unchanged return the same string, and the string is a function of the
outcome of reading the file and of `SwaggerInfo` only. -/
theorem ReadDoc_repeatable (L : Library) (fs fs' : FileSystem) (g g' : Globals)
    (hfile : ioutil_ReadFile fs g.Path = ioutil_ReadFile fs' g'.Path)
    (hinfo : g.SwaggerInfo = g'.SwaggerInfo) :
    (Swagger.ReadDoc L fs (Swagger.ReadDoc L fs g).2).1 = (Swagger.ReadDoc L fs g).1 ∧
    (Swagger.ReadDoc L fs g).1 = (Swagger.ReadDoc L fs' g').1 := by
  refine ⟨?_, ReadDoc_congr L fs fs' g g' hfile hinfo⟩
  rw [ReadDoc_globals]

/-- Witness for C7: the same document under two names in two file systems. -/
theorem ReadDoc_repeatable_witness :
    (Swagger.ReadDoc strictLibrary (oneFile testDoc)
        (Swagger.ReadDoc strictLibrary (oneFile testDoc) sampleGlobals).2).1
      = (Swagger.ReadDoc strictLibrary (oneFile testDoc) sampleGlobals).1 ∧
    (Swagger.ReadDoc strictLibrary (oneFile testDoc) sampleGlobals).1
      = (Swagger.ReadDoc strictLibrary (fun _ => .ok testDoc)
          { sampleGlobals with Path := str "other.yaml" }).1 :=
  ReadDoc_repeatable strictLibrary (oneFile testDoc) (fun _ => .ok testDoc) sampleGlobals
    { sampleGlobals with Path := str "other.yaml" } rfl rfl

/-- C10: on every return path `ReadDoc` leaves `Path` and `SwaggerInfo` as
they were; the description in `SwaggerInfo` is still the raw one, whatever
was done to the local copy. -/
theorem ReadDoc_preserves_globals (L : Library) (fs : FileSystem) (g : Globals) :
    (Swagger.ReadDoc L fs g).2.Path = g.Path ∧
    (Swagger.ReadDoc L fs g).2.SwaggerInfo = g.SwaggerInfo ∧
    (Swagger.ReadDoc L fs g).2.SwaggerInfo.Description = g.SwaggerInfo.Description := by
  rw [ReadDoc_globals]
  exact ⟨rfl, rfl, rfl⟩

/-- The local copy is escaped, the package-level record is not: after
rendering a description with a line feed, the output carries `\n` and the
record still holds the line feed. -/
theorem ReadDoc_escapes_copy_only (L : Library) :
    (Swagger.ReadDoc L (oneFile (str "\x7b\x7b.Description\x7d\x7d")) sampleGlobals).1
      = str "a &amp; b\\nc" ∧
    (Swagger.ReadDoc L (oneFile (str "\x7b\x7b.Description\x7d\x7d"))
        sampleGlobals).2.SwaggerInfo.Description = str "a & b\nc" :=
  ⟨rfl, rfl⟩

/-! ## Where `html/template` departs from plain substitution

`ReadDoc` parses the document with `html/template`.  That package treats
the document as HTML and escapes what it substitutes, and rewrites a bare
`<` in the text; the evaluations below record the effect. -/

/-- C3: with `Schemes = ["http", "https"]` and the placeholder
`{{marshal .Schemes}}`, `marshal` returns `["http","https"]`, but what
`ReadDoc` writes at the placeholder is `[&#34;http&#34;,&#34;https&#34;]`:
the output does not contain `["http","https"]`. -/
theorem ReadDoc_marshal_schemes (L : Library) :
    sampleGlobals.SwaggerInfo.Schemes = [str "http", str "https"] ∧
    marshal (.strings [str "http", str "https"]) = .known (str "[\"http\",\"https\"]") ∧
    (Swagger.ReadDoc L
        (oneFile (str "\x7b\"schemes\": \x7b\x7bmarshal .Schemes\x7d\x7d\x7d")) sampleGlobals).1
      = str "\x7b\"schemes\": [&#34;http&#34;,&#34;https&#34;]\x7d" ∧
    ¬ (str "[\"http\",\"https\"]" <:+:
        (Swagger.ReadDoc L
          (oneFile (str "\x7b\"schemes\": \x7b\x7bmarshal .Schemes\x7d\x7d\x7d"))
          sampleGlobals).1) := by
  have h : (Swagger.ReadDoc L
        (oneFile (str "\x7b\"schemes\": \x7b\x7bmarshal .Schemes\x7d\x7d\x7d")) sampleGlobals).1
      = str "\x7b\"schemes\": [&#34;http&#34;,&#34;https&#34;]\x7d" := rfl
  refine ⟨rfl, rfl, h, ?_⟩
  rw [h]
  decide

/-- C4: with `Title = "R&D API"` and the document
`{"title": "{{.Title}}"}`, `ReadDoc` returns `{"title": "R&amp;D API"}`,
not the document with the title itself in place of the placeholder. -/
theorem ReadDoc_title (L : Library) :
    sampleGlobals.SwaggerInfo.Title = str "R&D API" ∧
    (Swagger.ReadDoc L
        (oneFile (str "\x7b\"title\": \"" ++ str "\x7b\x7b.Title\x7d\x7d" ++ str "\"\x7d"))
        sampleGlobals).1
      = str "\x7b\"title\": \"" ++ str "R&amp;D API" ++ str "\"\x7d" ∧
    (Swagger.ReadDoc L
        (oneFile (str "\x7b\"title\": \"" ++ str "\x7b\x7b.Title\x7d\x7d" ++ str "\"\x7d"))
        sampleGlobals).1
      ≠ str "\x7b\"title\": \"" ++ sampleGlobals.SwaggerInfo.Title ++ str "\"\x7d" := by
  have h : (Swagger.ReadDoc L
        (oneFile (str "\x7b\"title\": \"" ++ str "\x7b\x7b.Title\x7d\x7d" ++ str "\"\x7d"))
        sampleGlobals).1
      = str "\x7b\"title\": \"" ++ str "R&amp;D API" ++ str "\"\x7d" := rfl
  refine ⟨rfl, h, ?_⟩
  rw [h]
  decide

/-- C5: with `Description = "a & b\nc"` and the document
`{{.Description}}`, the text `ReadDoc` writes is `a &amp; b\nc` (backslash,
`n`): the line feed is replaced and no line feed is left, but the text is
not the description with only its line feeds replaced, `a & b\nc`. -/
theorem ReadDoc_description (L : Library) :
    sampleGlobals.SwaggerInfo.Description = str "a & b\nc" ∧
    strings_Replace sampleGlobals.SwaggerInfo.Description 0x0A (str "\\n") = str "a & b\\nc" ∧
    (Swagger.ReadDoc L (oneFile (str "\x7b\x7b.Description\x7d\x7d")) sampleGlobals).1
      = str "a &amp; b\\nc" ∧
    (Swagger.ReadDoc L (oneFile (str "\x7b\x7b.Description\x7d\x7d")) sampleGlobals).1
      ≠ strings_Replace sampleGlobals.SwaggerInfo.Description 0x0A (str "\\n") := by
  have h : (Swagger.ReadDoc L (oneFile (str "\x7b\x7b.Description\x7d\x7d")) sampleGlobals).1
      = str "a &amp; b\\nc" := rfl
  refine ⟨rfl, rfl, h, ?_⟩
  rw [h]
  decide

/-- C6: the document of the test has no placeholder and is returned as it
is; the document `{"description": "x < 1"}` has no placeholder either and
is returned as `{"description": "x &lt; 1"}`. -/
theorem ReadDoc_no_placeholder (L : Library) :
    (Swagger.ReadDoc L (oneFile testDoc) sampleGlobals).1 = testDoc ∧
    ¬ (str "\x7b\x7b" <:+: str "\x7b\"description\": \"x < 1\"\x7d") ∧
    (Swagger.ReadDoc L (oneFile (str "\x7b\"description\": \"x < 1\"\x7d")) sampleGlobals).1
      = str "\x7b\"description\": \"x &lt; 1\"\x7d" ∧
    (Swagger.ReadDoc L (oneFile (str "\x7b\"description\": \"x < 1\"\x7d")) sampleGlobals).1
      ≠ str "\x7b\"description\": \"x < 1\"\x7d" := by
  have h : (Swagger.ReadDoc L (oneFile (str "\x7b\"description\": \"x < 1\"\x7d"))
        sampleGlobals).1 = str "\x7b\"description\": \"x &lt; 1\"\x7d" := rfl
  refine ⟨rfl, by decide, h, ?_⟩
  rw [h]
  decide

/-! ## Properties of the route facade -/

/-- The byte of a digit is the code of `0` plus the digit. -/
theorem digitByte_toNat (d : Nat) (h : d < 10) : (digitByte d).toNat = 0x30 + d := by
  interval_cases d <;> rfl

/-- The byte of a digit is a decimal digit. -/
theorem digitByte_isDigit (d : Nat) (h : d < 10) : isDigit (digitByte d) = true := by
  interval_cases d <;> rfl

/-- Appending one digit multiplies the value by ten and adds the digit. -/
theorem decimalValue_snoc (ds : GoString) (b : UInt8) :
    decimalValue (ds ++ [b]) = 10 * decimalValue ds + (b.toNat - 0x30) := by
  simp [decimalValue, List.foldl_append]

/-- A decimal digit has a code between those of `0` and `9`. -/
theorem isDigit_toNat (b : UInt8) (h : isDigit b = true) : 0x30 ≤ b.toNat ∧ b.toNat ≤ 0x39 := by
  simp only [isDigit, Bool.and_eq_true, decide_eq_true_eq] at h
  obtain ⟨h1, h2⟩ := h
  rw [UInt8.le_def] at h1 h2
  exact ⟨h1, h2⟩

/-- Bytes with the same code are the same byte. -/
theorem UInt8_eq_of_toNat (a b : UInt8) (h : a.toNat = b.toNat) : a = b := by
  cases a; cases b
  simp only [UInt8.toNat] at h
  congr
  exact BitVec.eq_of_toNat_eq h

/-- A numeral with digits only and a first digit other than `0` denotes a
positive number. -/
theorem decimalValue_pos : ∀ ds : GoString, ds ≠ [] → (∀ b ∈ ds, isDigit b = true) →
    ds.head? ≠ some 0x30 → 0 < decimalValue ds := by
  intro ds
  induction ds using List.reverseRecOn with
  | nil => intro h; exact absurd rfl h
  | append_singleton init b ih =>
    intro _ hdig hhead
    rw [decimalValue_snoc]
    cases init with
    | nil =>
      have hb := isDigit_toNat b (hdig b (by simp))
      have hne : b ≠ 0x30 := by
        intro e; apply hhead; simp [e]
      have : b.toNat ≠ 0x30 := fun e => hne (UInt8_eq_of_toNat _ _ e)
      omega
    | cons d init' =>
      have := ih (by simp) (fun x hx => hdig x (by simp at hx ⊢; tauto))
        (by simpa using hhead)
      omega

/-- Two decimal numerals of the same number are the same string. -/
theorem isDecimalNumeral_unique : ∀ (ds ds' : GoString) (n : Nat),
    isDecimalNumeral ds n → isDecimalNumeral ds' n → ds = ds' := by
  intro ds
  induction ds using List.reverseRecOn with
  | nil => intro ds' n h; exact absurd rfl h.1
  | append_singleton init b ih =>
    intro ds' n ⟨_, hdig, hval, hcan⟩ ⟨hne', hdig', hval', hcan'⟩
    rcases List.eq_nil_or_concat ds' with e | ⟨init', b', e⟩
    · exact absurd e hne'
    · rw [List.concat_eq_append] at e
      subst e
      have hb := isDigit_toNat b (hdig b (by simp))
      have hb' := isDigit_toNat b' (hdig' b' (by simp))
      rw [decimalValue_snoc] at hval hval'
      have hbb : b = b' := UInt8_eq_of_toNat _ _ (by omega)
      have hv : decimalValue init = decimalValue init' := by omega
      subst hbb
      -- a numeral of two or more digits does not start with `0`
      have hfront : ∀ (xs : GoString) (c : UInt8), xs ≠ [] →
          ((xs ++ [c]).head? = some 0x30 → xs ++ [c] = [0x30]) → xs.head? ≠ some 0x30 := by
        intro xs c hx hc hh
        cases xs with
        | nil => exact hx rfl
        | cons x xs' =>
          have := hc (by simpa using hh)
          simp at this
      by_cases hi : init = []
      · by_cases hi' : init' = []
        · rw [hi, hi']
        · have := decimalValue_pos init' hi' (fun x hx => hdig' x (by simp; tauto))
            (hfront init' b hi' hcan')
          rw [hi] at hv
          have h0 : decimalValue ([] : GoString) = 0 := rfl
          omega
      · by_cases hi' : init' = []
        · have := decimalValue_pos init hi (fun x hx => hdig x (by simp; tauto))
            (hfront init b hi hcan)
          rw [hi'] at hv
          have h0 : decimalValue ([] : GoString) = 0 := rfl
          omega
        · have hnum : isDecimalNumeral init (decimalValue init) :=
            ⟨hi, fun x hx => hdig x (by simp; tauto), rfl,
              fun hh => absurd hh (hfront init b hi hcan)⟩
          have hnum' : isDecimalNumeral init' (decimalValue init) :=
            ⟨hi', fun x hx => hdig' x (by simp; tauto), hv.symm,
              fun hh => absurd hh (hfront init' b hi' hcan')⟩
          rw [ih init' (decimalValue init) hnum hnum']

/-- With enough fuel `formatDigits` writes the decimal numeral of `n` in
front of the accumulator. -/
theorem formatDigits_spec : ∀ (fuel n : Nat), n < fuel →
    ∃ ds : GoString, (∀ acc, formatDigits fuel n acc = ds ++ acc) ∧ isDecimalNumeral ds n := by
  intro fuel
  induction fuel with
  | zero => intro n h; omega
  | succ fuel ih =>
    intro n hn
    by_cases h10 : n < 10
    · refine ⟨[digitByte n], ?_, by simp, ?_, ?_, ?_⟩
      · intro acc; simp [formatDigits, h10]
      · intro b hb
        simp only [List.mem_singleton] at hb
        subst hb
        exact digitByte_isDigit n h10
      · simp [decimalValue, digitByte_toNat n h10]
      · intro hh
        simp only [List.head?_cons, Option.some.injEq] at hh
        rw [hh]
    · have hlt : n / 10 < fuel := by omega
      obtain ⟨ds, hacc, hne, hdig, hval, hhead⟩ := ih (n / 10) hlt
      have hmod : n % 10 < 10 := Nat.mod_lt _ (by decide)
      refine ⟨ds ++ [digitByte (n % 10)], ?_, by simp, ?_, ?_, ?_⟩
      · intro acc
        simp [formatDigits, h10, hacc]
      · intro b hb
        rcases List.mem_append.mp hb with hb | hb
        · exact hdig b hb
        · simp only [List.mem_singleton] at hb
          subst hb
          exact digitByte_isDigit _ hmod
      · rw [decimalValue_snoc, hval, digitByte_toNat _ hmod]
        omega
      · intro hh
        cases ds with
        | nil => exact absurd rfl hne
        | cons d ds' =>
          simp only [List.cons_append, List.head?_cons] at hh
          have hz := hhead (by simpa using hh)
          rw [hz] at hval
          have h0 : decimalValue [0x30] = 0 := rfl
          omega

/-- C8: `Listen(port)` returns a server whose `Addr` is `:` followed by the
decimal representation of `port`: a minus sign exactly when the port is
negative, then the decimal numeral of its magnitude, which is the only
string that is one (so `Addr` is `:0` for port 0 and nothing else);
`Handler` is the server's router, nil or not; every other field is zero. -/
theorem Listen_returns {Context Mux : Type} (h : Server Context Mux) (port : Int) :
    (∃ ds : GoString,
      (h.Listen port).Addr = 0x3A :: ((if port < 0 then [0x2D] else []) ++ ds) ∧
      isDecimalNumeral ds port.natAbs ∧
      (∀ ds' : GoString, isDecimalNumeral ds' port.natAbs → ds' = ds) ∧
      (ds.head? = some 0x30 → port = 0)) ∧
    (port = 0 → (h.Listen port).Addr = str ":0") ∧
    (h.Listen port).Handler = h.router ∧
    (h.Listen port).TLSConfig = none ∧
    (h.Listen port).ReadTimeout = 0 ∧
    (h.Listen port).ReadHeaderTimeout = 0 ∧
    (h.Listen port).WriteTimeout = 0 ∧
    (h.Listen port).IdleTimeout = 0 ∧
    (h.Listen port).MaxHeaderBytes = 0 ∧
    (h.Listen port).TLSNextProto = none ∧
    (h.Listen port).ConnState = none ∧
    (h.Listen port).ErrorLog = none ∧
    (h.Listen port).BaseContext = none ∧
    (h.Listen port).ConnContext = none := by
  refine ⟨?_, ?_, rfl, rfl, rfl, rfl, rfl, rfl, rfl, rfl, rfl, rfl, rfl, rfl⟩
  · obtain ⟨ds, hacc, hnum⟩ :=
      formatDigits_spec (port.natAbs + 1) port.natAbs (Nat.lt_succ_self _)
    refine ⟨ds, ?_, hnum, fun ds' h' => isDecimalNumeral_unique ds' ds _ h' hnum, ?_⟩
    · have hfmt : strconv_FormatUint port.natAbs = ds := by
        simp [strconv_FormatUint, hacc]
      by_cases hneg : port < 0
      · simp [Server.Listen, fmt_Sprintf_addr, strconv_FormatInt, hneg, hfmt]
      · simp [Server.Listen, fmt_Sprintf_addr, strconv_FormatInt, hneg, hfmt]
    · intro hh
      have hz := hnum.2.2.2 hh
      have hv := hnum.2.2.1
      rw [hz] at hv
      have h0 : decimalValue [0x30] = 0 := rfl
      exact Int.natAbs_eq_zero.mp (by omega)
  · intro hp
    subst hp
    rfl

/-- The port of the test: `Listen(8080)` has `Addr = ":8080"`. -/
theorem Listen_8080 {Context Mux : Type} (h : Server Context Mux) :
    (h.Listen 8080).Addr = str ":8080" := by
  rfl

/-- C9: `Swagger(pattern, path)` sets `Path` to `path`, whatever the pattern
and the path are and whether or not the registration that follows panics,
and leaves `SwaggerInfo` alone; a later call overrides an earlier one; and
a following `ReadDoc` reads the file at `path`: its result is the outcome
of reading `path`, rendered with `SwaggerInfo`. -/
theorem Swagger_sets_Path {Context Mux : Type} (chi : Chi Mux) (h h' : Server Context Mux)
    (pattern path pattern' path' : GoString) (g : Globals) (L : Library) (fs : FileSystem) :
    (Server.Swagger chi h pattern path g).1.Path = path ∧
    (Server.Swagger chi h pattern path g).1.SwaggerInfo = g.SwaggerInfo ∧
    (Server.Swagger chi h pattern path Globals.initial).1.Path = path ∧
    (Server.Swagger chi h' pattern' path' (Server.Swagger chi h pattern path g).1).1.Path
      = path' ∧
    (Swagger.ReadDoc L fs (Server.Swagger chi h pattern path g).1).1
      = (Swagger.ReadDoc L (fun _ => fs path) { g with Path := path }).1 := by
  have hg : ∀ (k : Server Context Mux) (pat p : GoString) (g0 : Globals),
      (Server.Swagger chi k pat p g0).1 = { g0 with Path := p } := by
    intro k pat p g0
    unfold Server.Swagger
    dsimp only
    split <;> rfl
  refine ⟨by rw [hg], by rw [hg], by rw [hg], by rw [hg], ?_⟩
  rw [hg]
  apply ReadDoc_congr
  · simp only [ioutil_ReadFile]
  · rfl

/-! ## Supporting facts about the pieces of `ReadDoc` -/

/-- The replacement `ReadDoc` applies to the description acts byte by byte:
a line feed becomes backslash and `n`, every other byte stays. -/
theorem strings_Replace_newline_eq (s : GoString) :
    strings_Replace s 0x0A (str "\\n")
      = s.flatMap (fun c => if c = 0x0A then [0x5C, 0x6E] else [c]) := by
  induction s with
  | nil => rfl
  | cons c rest ih =>
    by_cases hc : c = 0x0A
    · subst hc
      simp only [strings_Replace, if_true, List.flatMap_cons, ih]
      rfl
    · simp only [strings_Replace, hc, if_false, List.flatMap_cons, ih]
      rfl

/-- After the replacement the description holds no line feed. -/
theorem strings_Replace_no_newline (s : GoString) :
    (0x0A : UInt8) ∉ strings_Replace s 0x0A (str "\\n") := by
  induction s with
  | nil => simp [strings_Replace]
  | cons c rest ih =>
    by_cases hc : c = 0x0A
    · subst hc
      simp only [strings_Replace, if_true]
      intro hmem
      rcases List.mem_append.mp hmem with h | h
      · revert h; decide
      · exact ih h
    · simp only [strings_Replace, hc, if_false, List.mem_cons, not_or]
      exact ⟨fun h => hc h.symm, ih⟩

/-- The HTML escaper never writes a line feed that was not in its input. -/
theorem htmlReplacer_no_newline (s : GoString) (h : (0x0A : UInt8) ∉ s) :
    (0x0A : UInt8) ∉ htmlReplacer s := by
  induction s with
  | nil => simp [htmlReplacer]
  | cons c rest ih =>
    have hc : (0x0A : UInt8) ≠ c := fun e => h (e ▸ List.mem_cons_self _ _)
    have hrest : (0x0A : UInt8) ∉ rest := fun m => h (List.mem_cons_of_mem _ m)
    unfold htmlReplacer
    cases htab : htmlReplacementTable c with
    | none =>
      simp only [List.mem_cons, not_or]
      exact ⟨hc, ih hrest⟩
    | some r =>
      simp only
      intro hmem
      rcases List.mem_append.mp hmem with hm | hm
      · unfold htmlReplacementTable at htab
        split_ifs at htab <;> cases htab <;> revert hm <;> decide
      · exact ih hrest hm

/-- Text without `{` is one text item (none when the text is empty). -/
theorem lex_plain (doc : GoString) (h : ∀ b ∈ doc, b ≠ 0x7B) :
    ∀ acc, lex false acc doc = some (emitText (doc.reverse ++ acc) []) := by
  induction doc with
  | nil => intro acc; simp [lex]
  | cons c rest ih =>
    intro acc
    have hc : c ≠ 0x7B := h c (List.mem_cons_self _ _)
    have hrest : ∀ b ∈ rest, b ≠ 0x7B := fun b hb => h b (List.mem_cons_of_mem _ hb)
    cases rest with
    | nil => simp [lex]
    | cons c' rest' =>
      have := ih hrest (c :: acc)
      simp only [lex, hc, false_and, if_false, Bool.false_eq_true] 
      rw [this]
      simp

/-- Text without `<` passes the escaper unchanged. -/
theorem escapeText_plain (s : GoString) (h : ∀ b ∈ s, b ≠ 0x3C) :
    escapeText s = .known s := by
  induction s with
  | nil => rfl
  | cons c rest ih =>
    have hc : c ≠ 0x3C := h c (List.mem_cons_self _ _)
    have hrest : ∀ b ∈ rest, b ≠ 0x3C := fun b hb => h b (List.mem_cons_of_mem _ hb)
    cases rest with
    | nil => simp [escapeText, hc]
    | cons c' rest' =>
      have hk := ih hrest
      rw [escapeText]
      simp only [hc, if_false, hk]

/-- A document with no `{` and no `<` is returned as it is, whatever the
info record holds and whatever the library does outside the fragment. -/
theorem ReadDoc_plain (L : Library) (fs : FileSystem) (g : Globals) (doc : GoString)
    (hread : ioutil_ReadFile fs g.Path = .ok doc)
    (hbrace : ∀ b ∈ doc, b ≠ 0x7B) (hlt : ∀ b ∈ doc, b ≠ 0x3C) :
    (Swagger.ReadDoc L fs g).1 = doc := by
  have hlex := lex_plain doc hbrace []
  simp only [List.append_nil] at hlex
  unfold Swagger.ReadDoc
  rw [hread]
  dsimp only
  by_cases hd : doc = []
  · subst hd
    rfl
  · have hrev : doc.reverse ≠ [] := by simpa using hd
    simp [template_Parse, hlex, emitText, hrev, parseItems, template_Execute, escapeTree,
      escapeText_plain doc hlt, walk, evalNode]
